import Mathlib

/-!
A shallow embedding of the group-order AI of `rts/Game/SelectedUnitsAI.cpp`
(class `CSelectedUnitsHandlerAI`).  Floating-point scalars are modelled as
rationals; the only irrational operations of the file (`float3::distance`,
`float3::ANormalize`, `math::sqrt`) are modelled as oracle fields of the
environment, and theorems that depend on their meaning constrain the oracle
by the defining property of a square root.  External collaborators
(`unitHandler.GetUnit`, `CCommandAI::WillCancelQueued`,
`CGround::GetHeightAboveWater`, `quadField.GetUnitsExact`, player/team
bookkeeping) are modelled as environment fields as well.  Every order issued
through `CCommandAI::GiveCommand`, and the single
`waitCommandsAI.AcknowledgeCommand` call, is recorded as an event in an
output trace; the unit of an event is the id of the `CUnit` the command was
given to, and the boolean records the second (`fromSynced`) argument of
`GiveCommand`.
-/

/-- `float3` of the engine, over exact rationals. -/
structure Float3 where
  x : ℚ
  y : ℚ
  z : ℚ
deriving DecidableEq

instance : Inhabited Float3 := ⟨⟨0, 0, 0⟩⟩

def Float3.zero : Float3 := ⟨0, 0, 0⟩

instance : Add Float3 := ⟨fun a b => ⟨a.x + b.x, a.y + b.y, a.z + b.z⟩⟩

instance : Sub Float3 := ⟨fun a b => ⟨a.x - b.x, a.y - b.y, a.z - b.z⟩⟩

/-- Componentwise `float3::min`. -/
def Float3.minc (a b : Float3) : Float3 := ⟨min a.x b.x, min a.y b.y, min a.z b.z⟩

/-- Componentwise `float3::max`. -/
def Float3.maxc (a b : Float3) : Float3 := ⟨max a.x b.x, max a.y b.y, max a.z b.z⟩

/-- Scalar multiplication `v * s`. -/
def Float3.smul (a : Float3) (s : ℚ) : Float3 := ⟨a.x * s, a.y * s, a.z * s⟩

/-- Scalar division `v / s` (total; sites where the source divides are
guarded per the theorems below). -/
def Float3.divQ (a : Float3) (s : ℚ) : Float3 := ⟨a.x / s, a.y / s, a.z / s⟩

/-- `float3::cross`. -/
def Float3.cross (a b : Float3) : Float3 :=
  ⟨a.y * b.z - a.z * b.y, a.z * b.x - a.x * b.z, a.x * b.y - a.y * b.x⟩

/-- `float3::SqLength2D` of a difference vector: squared planar distance. -/
def Float3.sqLength2D (a : Float3) : ℚ := a.x * a.x + a.z * a.z

/-- Squared 3D length; `float3::distance a b` is the square root of
`sqLength (a - b)`. -/
def Float3.sqLength (a : Float3) : ℚ := a.x * a.x + a.y * a.y + a.z * a.z

/-- The property that `d` is the value of `float3::distance a b`. -/
def IsDistance (a b : Float3) (d : ℚ) : Prop := 0 ≤ d ∧ d * d = Float3.sqLength (a - b)

/-- The modifier bits of `Command::options` that this file reads
(`ALT_KEY`, `CONTROL_KEY`, `SHIFT_KEY`); the remaining bits of the byte are
never inspected here and are dropped from the model. -/
structure CmdOpts where
  altKey : Bool
  controlKey : Bool
  shiftKey : Bool
deriving DecidableEq

/-- A deserialized order: command id, modifier options, parameter list. -/
structure Command where
  id : Int
  opts : CmdOpts
  params : List ℚ
deriving DecidableEq

instance : Inhabited Command := ⟨⟨0, ⟨false, false, false⟩, []⟩⟩

/-- `Command::GetParam`. -/
def Command.GetParam (c : Command) (i : Nat) : ℚ := c.params.getD i 0

/-- `Command::GetPos`: three consecutive params as a position. -/
def Command.GetPos (c : Command) (i : Nat) : Float3 :=
  ⟨c.GetParam i, c.GetParam (i + 1), c.GetParam (i + 2)⟩

/-- `Command::PushPos`. -/
def Command.PushPos (c : Command) (p : Float3) : Command :=
  { c with params := c.params ++ [p.x, p.y, p.z] }

/- Command ids (from `Sim/Units/CommandAI/Command.h`, outside this excerpt;
only their distinctness matters here, the numeric values are the engine's). -/

def CMD_STOP : Int := 0
def CMD_WAIT : Int := 5
def CMD_MOVE : Int := 10
def CMD_PATROL : Int := 15
def CMD_FIGHT : Int := 16
def CMD_ATTACK : Int := 20
def CMD_FIRE_STATE : Int := 45
def CMD_MOVE_STATE : Int := 50
def CMD_SELFD : Int := 65
def CMD_SET_WANTED_MAX_SPEED : Int := 70
def CMD_ONOFF : Int := 85
def CMD_REPEAT : Int := 115

/-- `SQUARE_SIZE` from `Sim/Misc/GlobalConstants.h` (outside this excerpt):
the elmo length of one map square. -/
def SQUARE_SIZE : ℚ := 8

/-- The facts this file reads about a `CUnit` (through `unit->`,
`unit->unitDef->`, `unit->commandAI->` and `unit->moveType->`):
`canSetMaxSpeed` is `commandAI->CanSetMaxSpeed()`, `maxSpeed` is
`moveType->GetMaxSpeed()`, `losStatus` is indexed by ally team
(bit 1 = `LOS_INLOS`, bit 2 = `LOS_INRADAR`), `commandQue` is the pending
order queue read by `LastQueuePosition`. -/
structure CUnit where
  id : Nat
  midPos : Float3
  xsize : ℤ
  zsize : ℤ
  metal : ℚ
  energy : ℚ
  health : ℚ
  maxRange : ℚ
  canSetMaxSpeed : Bool
  maxSpeed : ℚ
  allyteam : Nat
  losStatus : List Nat
  commandQue : List Command
deriving DecidableEq

instance : Inhabited CUnit :=
  ⟨⟨0, ⟨0, 0, 0⟩, 0, 0, 0, 0, 1, 0, false, 0, 0, [], []⟩⟩

/-- One observable side effect: `cai->GiveCommand(c, fromSynced)` on the unit
with id `unitId`, or `waitCommandsAI.AcknowledgeCommand(c)`. -/
inductive Event where
  | order (unitId : Nat) (c : Command) (fromSynced : Bool)
  | ack (c : Command)
deriving DecidableEq

/-- The collaborators of one `GiveCommandNet` call.  `netSelected` is
`selectedUnitsHandler.netSelected[player]` for the issuing player;
`quadUnits` is the answer of the one `quadField.GetUnitsExact` broad-phase
query the call makes (possibly containing null entries); `allyTeam` is
`teamHandler.AllyTeam(p->team)`; `validPlayer` folds
`playerHandler.IsValidPlayer(player)` and the null check of
`playerHandler.Player(player)`; `dist` is the `float3::distance` oracle,
`anormXZ` the `(v * XZVector).ANormalize()` oracle and `sqrtQ` the
`math::sqrt` oracle. -/
structure Env where
  getUnit : Nat → Option CUnit
  netSelected : List Nat
  willCancelQueued : CUnit → Command → Bool
  groundHeight : ℚ → ℚ → ℚ
  dist : Float3 → Float3 → ℚ
  anormXZ : Float3 → Float3
  sqrtQ : ℚ → ℚ
  quadUnits : List (Option CUnit)
  validPlayer : Bool
  allyTeam : Nat
  myPlayerNum : Nat

/-- `MayRequireSetMaxSpeedCommand` (SelectedUnitsAI.cpp:65). -/
def MayRequireSetMaxSpeedCommand (c : Command) : Bool :=
  if c.id = CMD_STOP then false
  else if c.id = CMD_WAIT then false
  else if c.id = CMD_SELFD then false
  else if c.id = CMD_FIRE_STATE then false
  else if c.id = CMD_MOVE_STATE then false
  else if c.id = CMD_ONOFF then false
  else if c.id = CMD_REPEAT then false
  else true

/-- `AddUnitSetMaxSpeedCommandNet` (SelectedUnitsAI.cpp:36): a speed-match
order carrying the unit's current actual max speed, dropped when the unit's
command AI cannot set a wanted max speed. -/
def AddUnitSetMaxSpeedCommandNet (u : CUnit) (options : CmdOpts) : List Event :=
  if ¬u.canSetMaxSpeed then []
  else [Event.order u.id ⟨CMD_SET_WANTED_MAX_SPEED, options, [u.maxSpeed]⟩ true]

/-- `AddGroupSetMaxSpeedCommandNet` (SelectedUnitsAI.cpp:51): like the
per-unit variant but carrying `groupMinMaxSpeed`. -/
def AddGroupSetMaxSpeedCommandNet (u : CUnit) (options : CmdOpts)
    (groupMinMaxSpeed : ℚ) : List Event :=
  if ¬u.canSetMaxSpeed then []
  else [Event.order u.id ⟨CMD_SET_WANTED_MAX_SPEED, options, [groupMinMaxSpeed]⟩ true]

/-- `LastQueuePosition` (SelectedUnitsAI.cpp:703): the position of the last
queued command with at least three params, else the unit's own position. -/
def LastQueuePosition (u : CUnit) : Float3 :=
  match u.commandQue.reverse.find? (fun cmd => decide (3 ≤ cmd.params.length)) with
  | some cmd => cmd.GetPos 0
  | none => u.midPos

/-- The reference position of a unit for group computations: last-queued
position when queueing, current position otherwise. -/
def unitRefPos (queueing : Bool) (u : CUnit) : Float3 :=
  if queueing then LastQueuePosition u else u.midPos

/-- The aggregate scalars computed by `CalculateGroupData`. -/
structure GroupData where
  groupSumLength : ℚ
  groupAvgLength : ℚ
  groupMinMaxSpeed : ℚ
  groupCenterCoor : Float3
  minCoor : Float3
  maxCoor : Float3

/-- The loop accumulator of `CalculateGroupData`. -/
structure GroupAccum where
  sumLength : ℚ
  minCoor : Float3
  maxCoor : Float3
  sumCoor : Float3
  mobileSumCoor : Float3
  mobileUnits : Nat
  minMaxSpeed : ℚ

/-- One iteration of the `CalculateGroupData` loop body
(SelectedUnitsAI.cpp:270). -/
def groupStep (env : Env) (queueing : Bool) (st : GroupAccum) (uid : Nat) : GroupAccum :=
  match env.getUnit uid with
  | none => st
  | some u =>
    let unitPos := unitRefPos queueing u
    let st := { st with
      sumLength := st.sumLength + ((u.xsize : ℚ) + (u.zsize : ℚ)) * (1/2)
      minCoor := st.minCoor.minc unitPos
      maxCoor := st.maxCoor.maxc unitPos
      sumCoor := st.sumCoor + unitPos }
    if ¬u.canSetMaxSpeed then st
    else { st with
      mobileUnits := st.mobileUnits + 1
      mobileSumCoor := st.mobileSumCoor + unitPos
      minMaxSpeed := min st.minMaxSpeed u.maxSpeed }

/-- `CalculateGroupData` (SelectedUnitsAI.cpp:256). -/
def CalculateGroupData (env : Env) (queueing : Bool) : GroupData :=
  let init : GroupAccum :=
    { sumLength := 0
      minCoor := ⟨100000, 100000, 100000⟩
      maxCoor := ⟨-100000, -100000, -100000⟩
      sumCoor := Float3.zero
      mobileSumCoor := Float3.zero
      mobileUnits := 0
      minMaxSpeed := 1000000000 }
  let st := env.netSelected.foldl (groupStep env queueing) init
  { groupSumLength := st.sumLength
    groupAvgLength := st.sumLength / (env.netSelected.length : ℚ)
    groupMinMaxSpeed := st.minMaxSpeed
    groupCenterCoor :=
      if st.mobileUnits > 0 then st.mobileSumCoor.divQ (st.mobileUnits : ℚ)
      else st.sumCoor.divQ (env.netSelected.length : ℚ)
    minCoor := st.minCoor
    maxCoor := st.maxCoor }

/-- The comparison `idPairComp` of the source sorts `(value, id)` pairs by
ascending `first`; a `std::stable_sort` by the strict comparison `<` on
`first` produces the unique list that is a permutation of the input, is
pairwise non-decreasing on `first`, and keeps elements with equal `first` in
input order.  `pairLE` is the corresponding non-strict relation. -/
def pairLE (a b : ℚ × Nat) : Prop := a.1 ≤ b.1

instance : DecidableRel pairLE := fun a b => inferInstanceAs (Decidable (a.1 ≤ b.1))

instance : IsTotal (ℚ × Nat) pairLE := ⟨fun a b => le_total a.1 b.1⟩

instance : IsTrans (ℚ × Nat) pairLE := ⟨fun _ _ _ h h' => le_trans h h'⟩

/-- `std::stable_sort(v.begin(), v.end(), idPairComp)`, modelled by stable
insertion sort on the non-strict key order (see `pairLE`). -/
def stableSortPairs (l : List (ℚ × Nat)) : List (ℚ × Nat) :=
  l.insertionSort pairLE

/-- `CreateUnitOrder` (SelectedUnitsAI.cpp:431): rank every resolvable
selected unit by `((metal*60 + energy) / health) * range`, weaponless units
(range below 1) using the constant range 2000, then stable-sort ascending. -/
def CreateUnitOrder (env : Env) : List (ℚ × Nat) :=
  stableSortPairs (env.netSelected.filterMap (fun unitID =>
    (env.getUnit unitID).map (fun u =>
      let range := if u.maxRange < 1 then (2000 : ℚ) else u.maxRange
      ((u.metal * 60 + u.energy) / u.health * range, unitID))))

/-- `MoveToPos` (SelectedUnitsAI.cpp:457).  Returns the updated corner
position, the per-unit front command appended to `frontcmds` (empty when the
source passes `nullptr` for `frontcmds` — the `emit` flag — or when the unit
lookup failed), and the `newline` flag.  `formationDir.y` is the divisor of
the front-local projection. -/
def MoveToPos (gd : GroupData) (groupFrontLength groupAddedSpace : ℚ)
    (formationRightPos : Float3) (ground : ℚ → ℚ → ℚ)
    (nextCornerPos : Float3) (formationDir : Float3)
    (unit : Option CUnit) (command : Command) (emit : Bool) :
    Float3 × List (Nat × Command) × Bool :=
  let newline := decide (nextCornerPos.x - groupAddedSpace > groupFrontLength)
  let ncp := if newline then
      ⟨0, nextCornerPos.y, nextCornerPos.z - gd.groupAvgLength * 2 * SQUARE_SIZE⟩
    else nextCornerPos
  if ¬emit then (ncp, [], newline)
  else match unit with
  | none => (ncp, [], newline)
  | some u =>
    let unitSize : ℤ := (u.xsize + u.zsize) / 2
    let retPosX := ncp.x + (unitSize : ℚ) * SQUARE_SIZE * 2 + groupAddedSpace
    let movePosX := ncp.x + (unitSize : ℚ) * SQUARE_SIZE + groupAddedSpace
    let movePosX := if ncp.x = 0 then (unitSize : ℚ) * SQUARE_SIZE else movePosX
    let retPosX := if ncp.x = 0 then retPosX - groupAddedSpace else retPosX
    let posx := formationRightPos.x + movePosX * (formationDir.x / formationDir.y)
      - ncp.z * (formationDir.z / formationDir.y)
    let posz := formationRightPos.z + movePosX * (formationDir.z / formationDir.y)
      + ncp.z * (formationDir.x / formationDir.y)
    let pos : Float3 := ⟨posx, ground posx posz, posz⟩
    (⟨retPosX, 0, ncp.z⟩, [(u.id, ⟨command.id, command.opts, [pos.x, pos.y, pos.z]⟩)], newline)

/-- The `sortedUnitGroups` update of the formation loop
(SelectedUnitsAI.cpp:352): a `lower_bound` on the key-sorted vector of
`(priority, ids)` buckets followed by either appending the id to the bucket
with the identical key or inserting a fresh singleton bucket at the sorted
position (`emplace_back` plus the swap loop). -/
def insertGroup : List (ℚ × List Nat) → ℚ → Nat → List (ℚ × List Nat)
  | [], p, uid => [(p, [uid])]
  | (q, us) :: rest, p, uid =>
    if p < q then (p, [uid]) :: (q, us) :: rest
    else if p = q then (q, us ++ [uid]) :: rest
    else (q, us) :: insertGroup rest p uid

/-- The fill ratio `(0.5f + curGroupSize) / (1.0f * maxGroupSize)` of the
row-mixing loop (SelectedUnitsAI.cpp:399). -/
def groupVal (cur maxSize : Nat) : ℚ := ((1 : ℚ)/2 + (cur : ℚ)) / (maxSize : ℚ)

/-- One step of the inner bucket-selection loop of the row mixing
(SelectedUnitsAI.cpp:392-406): skip the bucket if it is exhausted
(`curGroupSize >= maxGroupSize`) or if its fill ratio does not improve on
the best so far, else make it the new best. -/
def pickStep (sizes counts : List Nat) (best : Nat × ℚ) (groupNum : Nat) : Nat × ℚ :=
  let maxGroupSize := sizes.getD groupNum 0
  let curGroupSize := counts.getD groupNum 0
  if curGroupSize ≥ maxGroupSize then best
  else if groupVal curGroupSize maxGroupSize ≥ best.2 then best
  else (groupNum, groupVal curGroupSize maxGroupSize)

/-- The inner bucket-selection loop of the row mixing
(SelectedUnitsAI.cpp:389-406): starting from `bestGroupNum = 0`,
`bestGroupVal = 1.0f`, scan the buckets in order with `pickStep`. -/
def pickBucket (sizes counts : List Nat) : Nat :=
  ((List.range sizes.length).foldl (pickStep sizes counts) ((0 : Nat), (1 : ℚ))).1

/-- The row-mixing loop over `frontMoveCommands`
(SelectedUnitsAI.cpp:388-416): `buckets` are the id vectors of
`sortedUnitGroups`, the counter list is `mixedGroupSizes`, and each step
emits `groupUnitIDs[unitIndex]` into `mixedUnitIDs` and increments the
chosen bucket's counter. -/
def mixUnits (buckets : List (List Nat)) : Nat → List Nat → List Nat
  | 0, _ => []
  | n + 1, counts =>
    let b := pickBucket (buckets.map List.length) counts
    let idx := counts.getD b 0
    (buckets.getD b []).getD idx 0 :: mixUnits buckets n (counts.set b (idx + 1))

/-- The counter list `mixedGroupSizes` after `n` steps of the mixing loop. -/
def mixCounts (buckets : List (List Nat)) : Nat → List Nat → List Nat
  | 0, counts => counts
  | n + 1, counts =>
    let b := pickBucket (buckets.map List.length) counts
    let idx := counts.getD b 0
    mixCounts buckets n (counts.set b (idx + 1))

/-- The units of each bucket not yet consumed by the mixing loop,
concatenated in bucket order. -/
def remJoin : List (List Nat) → List Nat → List Nat
  | [], _ => []
  | b :: bs, counts => b.drop (counts.headD 0) ++ remJoin bs counts.tail

/-- The `formationSideDir` of `MakeFormationFrontOrder`
(SelectedUnitsAI.cpp:338): `(centerPos - rightPos) * XZVector +
UpVector * groupFrontLength * 0.5`, where `groupFrontLength` is twice the
front distance `d`. -/
def formationSideDirOf (c : Command) (d : ℚ) : Float3 :=
  ⟨(c.GetPos 0).x - (c.GetPos 3).x, d * 2 * (1/2), (c.GetPos 0).z - (c.GetPos 3).z⟩

/-- The flush block of the formation loop (SelectedUnitsAI.cpp:381-423):
mix the row's buckets, then issue the row's front commands to the mixed
units in order.  The source looks the mixed ids up again without a null
check; the ids all came from `CreateUnitOrder`, which only ranks resolvable
units, so the lookup is modelled as a skip when it fails. -/
def flushRow (env : Env) (sortedUnitGroups : List (ℚ × List Nat))
    (frontMoveCommands : List (Nat × Command)) : List Event :=
  let buckets := sortedUnitGroups.map (·.2)
  let mixedUnitIDs := mixUnits buckets frontMoveCommands.length
    (List.replicate buckets.length 0)
  (frontMoveCommands.zip mixedUnitIDs).flatMap (fun pc =>
    match env.getUnit pc.2 with
    | none => []
    | some u => [Event.order u.id pc.1.2 false])

/-- The main loop of `MakeFormationFrontOrder` (SelectedUnitsAI.cpp:346):
convert the sorted `(priority, id)` pairs into priority buckets, place each
unit through `MoveToPos`, and when the one-step lookahead signals a new
formation line (or the pairs run out) flush the accumulated row.  The
lookahead call discards its returned position and passes no command buffer,
so only its `newline` flag (computed from the updated corner position alone)
is used. -/
def formLoop (env : Env) (gd : GroupData) (c : Command)
    (groupFrontLength groupAddedSpace : ℚ)
    (formationRightPos formationSideDir : Float3) :
    List (ℚ × Nat) → Float3 → List (ℚ × List Nat) → List (Nat × Command) → List Event
  | [], _, _, _ => []
  | (p, uid) :: rest, nextPos, sortedUnitGroups, frontMoveCommands =>
    let groups := insertGroup sortedUnitGroups p uid
    let mtp := MoveToPos gd groupFrontLength groupAddedSpace formationRightPos
      env.groundHeight nextPos formationSideDir (env.getUnit uid) c true
    let cmds := frontMoveCommands ++ mtp.2.1
    let lookahead := MoveToPos gd groupFrontLength groupAddedSpace formationRightPos
      env.groundHeight mtp.1 formationSideDir (env.getUnit uid) c false
    if rest ≠ [] ∧ ¬lookahead.2.2 then
      formLoop env gd c groupFrontLength groupAddedSpace formationRightPos
        formationSideDir rest mtp.1 groups cmds
    else
      flushRow env groups cmds ++
      formLoop env gd c groupFrontLength groupAddedSpace formationRightPos
        formationSideDir rest mtp.1 [] []

/-- `MakeFormationFrontOrder` (SelectedUnitsAI.cpp:303).  The front distance
`dist(centerPos, rightPos)` is the oracle value `env.dist`; if the front is
shorter than `size + 33` the original order is broadcast unmodified, else
rows are built and mixed.  `size() - 1` in the `groupAddedSpace` divisor is
`size_t` arithmetic, reachable here only with at least two selected units. -/
def MakeFormationFrontOrder (env : Env) (gd : GroupData) (c : Command) : List Event :=
  let formationCenterPos := c.GetPos 0
  let formationRightPos := c.GetPos 3
  let sel := env.netSelected
  let d := env.dist formationCenterPos formationRightPos
  if d < (sel.length : ℚ) + 33 then
    sel.flatMap (fun uid =>
      match env.getUnit uid with
      | none => []
      | some u => [Event.order u.id c false])
  else
    let groupFrontLength := d * 2
    let groupAddedSpace :=
      if groupFrontLength > gd.groupSumLength * 2 * SQUARE_SIZE then
        (groupFrontLength - gd.groupSumLength * 2 * SQUARE_SIZE) / ((sel.length - 1 : Nat) : ℚ)
      else 0
    formLoop env gd c groupFrontLength groupAddedSpace formationRightPos
      (formationSideDirOf c d) (CreateUnitOrder env) Float3.zero [] []

/-- Whether a unit is visible-or-on-radar to `allyTeam`
(`losStatus[allyTeam] & (LOS_INLOS | LOS_INRADAR)`). -/
def losVisible (u : CUnit) (allyTeam : Nat) : Bool :=
  (u.losStatus.getD allyTeam 0).land 3 ≠ 0

/-- `SelectCircleUnits` (SelectedUnitsAI.cpp:615): filter the broad-phase
result, dropping null entries, own-alliance units, units not seen by the
alliance, and units outside the exact squared radius. -/
def SelectCircleUnits (env : Env) (pos : Float3) (radius : ℚ) : List Nat :=
  if ¬env.validPlayer then []
  else env.quadUnits.filterMap (fun ou =>
    match ou with
    | none => none
    | some u =>
      if u.allyteam = env.allyTeam then none
      else if ¬losVisible u env.allyTeam then none
      else
        let dx := pos.x - u.midPos.x
        let dz := pos.z - u.midPos.z
        if dx * dx + dz * dz > radius * radius then none
        else some u.id)

/-- `SelectRectangleUnits` (SelectedUnitsAI.cpp:661): same filter without
the radius re-check (the rectangle bounds are part of the broad-phase query
itself, which is the `quadUnits` oracle). -/
def SelectRectangleUnits (env : Env) : List Nat :=
  if ¬env.validPlayer then []
  else env.quadUnits.filterMap (fun ou =>
    match ou with
    | none => none
    | some u =>
      if u.allyteam = env.allyTeam then none
      else if ¬losVisible u env.allyTeam then none
      else some u.id)

/-- The candidate target ids of `SelectAttackNet`
(SelectedUnitsAI.cpp:508-512): a circle query for 4-param commands, a
rectangle query otherwise. -/
def attackTargets (env : Env) (cmd : Command) : List Nat :=
  if cmd.params.length = 4 then SelectCircleUnits env (cmd.GetPos 0) (cmd.GetParam 3)
  else SelectRectangleUnits env

/-- The attack command of the cancel (`CONTROL_KEY`) branch for target `t`:
`Command(CMD_ATTACK, cmd.options, 0.0f)` with `SHIFT_KEY` or-ed in and
`params[0]` set to the target id. -/
def ctrlAttackCmd (cmd : Command) (t : Nat) : Command :=
  ⟨CMD_ATTACK, { cmd.opts with shiftKey := true }, [(t : ℚ)]⟩

/-- The lookup `unitHandler.GetUnit(targetUnitIDs[t])` of the target-sorting
loop (SelectedUnitsAI.cpp:578), which the source dereferences without a null
check; the ids were just produced from live units by the same-call query, so
the default is never produced along real executions. -/
def getUnitD (env : Env) (uid : Nat) : CUnit := (env.getUnit uid).getD default

/-- The target ranking of `SelectAttackNet` (SelectedUnitsAI.cpp:577-584):
pair each target with its squared planar distance from `midPos` and
stable-sort ascending. -/
def sortTargets (env : Env) (targets : List Nat) (midPos : Float3) : List (ℚ × Nat) :=
  stableSortPairs (targets.map (fun t =>
    (Float3.sqLength2D ((getUnitD env t).midPos - midPos), t)))

/-- The inner per-target loop of the attack distribution
(SelectedUnitsAI.cpp:599-610), threading the mutable `attackCmd`: set
`params[0]` to the ranked target, skip when queueing onto an attack that
would be cancelled, otherwise issue the attack, issue the per-unit
speed-match order with the attack's options, and or `SHIFT_KEY` in for all
later commands. -/
def attackInner (wcq : CUnit → Command → Bool) (queueing : Bool) (u : CUnit) :
    List (ℚ × Nat) → Command → List Event × Command
  | [], attackCmd => ([], attackCmd)
  | pt :: rest, attackCmd =>
    let attackCmd := { attackCmd with params := [(pt.2 : ℚ)] }
    if queueing ∧ wcq u attackCmd then attackInner wcq queueing u rest attackCmd
    else
      let evs := Event.order u.id attackCmd true :: AddUnitSetMaxSpeedCommandNet u attackCmd.opts
      let next := attackInner wcq queueing u rest
        { attackCmd with opts := { attackCmd.opts with shiftKey := true } }
      (evs ++ next.1, next.2)

/-- The outer per-selected-unit loop of the attack distribution
(SelectedUnitsAI.cpp:588-611): when not queueing, clear `SHIFT_KEY` at the
top of each unit's turn, then skip stale ids and run the per-target loop. -/
def attackOuter (env : Env) (queueing : Bool) (sortedUnitPairs : List (ℚ × Nat)) :
    List Nat → Command → List Event
  | [], _ => []
  | uid :: rest, attackCmd =>
    let attackCmd :=
      if ¬queueing then { attackCmd with opts := { attackCmd.opts with shiftKey := false } }
      else attackCmd
    match env.getUnit uid with
    | none => attackOuter env queueing sortedUnitPairs rest attackCmd
    | some u =>
      let step := attackInner env.willCancelQueued queueing u sortedUnitPairs attackCmd
      step.1 ++ attackOuter env queueing sortedUnitPairs rest step.2

/-- `SelectAttackNet` (SelectedUnitsAI.cpp:502). -/
def SelectAttackNet (env : Env) (cmd : Command) : List Event :=
  let targetUnitIDs := attackTargets env cmd
  if targetUnitIDs = [] then []
  else
    let queueing := cmd.opts.shiftKey
    let selected := env.netSelected
    if selected.length = 0 then []
    else
      let attackCmd : Command := ⟨CMD_ATTACK, cmd.opts, [0]⟩
      if cmd.opts.controlKey then
        -- delete the attack commands and bail for CONTROL_KEY
        selected.flatMap (fun uid =>
          match env.getUnit uid with
          | none => []
          | some u => targetUnitIDs.filterMap (fun t =>
              if env.willCancelQueued u (ctrlAttackCmd cmd t) then
                some (Event.order u.id (ctrlAttackCmd cmd t) true)
              else none))
      else
        let resolved := selected.filterMap env.getUnit
        let realCount := resolved.length
        if realCount = 0 then []
        else
          let midPos := (resolved.foldl (fun s u => s + unitRefPos queueing u)
            Float3.zero).divQ (realCount : ℚ)
          attackOuter env queueing (sortTargets env targetUnitIDs midPos) selected attackCmd

/-- The speed-match loop shared by the two formation branches of
`GiveCommandNet` (SelectedUnitsAI.cpp:144-155 and 178-189): group speed when
`CONTROL_KEY` is set, per-unit speed otherwise. -/
def formationSpeedLoop (env : Env) (gd : GroupData) (options : CmdOpts) : List Event :=
  env.netSelected.flatMap (fun uid =>
    match env.getUnit uid with
    | none => []
    | some u =>
      if options.controlKey then AddGroupSetMaxSpeedCommandNet u options gd.groupMinMaxSpeed
      else AddUnitSetMaxSpeedCommandNet u options)

/-- `params[CMDPARAM_MOVE_X/Y/Z] += difPos` of the group-locked branch
(SelectedUnitsAI.cpp:212-214). -/
def addDifPos (ps : List ℚ) (d : Float3) : List ℚ :=
  ((ps.set 0 (ps.getD 0 0 + d.x)).set 1 (ps.getD 1 0 + d.y)).set 2 (ps.getD 2 0 + d.z)

/-- `GiveCommandNet` (SelectedUnitsAI.cpp:82): classify the order and route
it to target assignment, the single-unit path, one of the two formation
paths, the group-locked path, or the broadcast fallback. -/
def GiveCommandNet (env : Env) (c : Command) (player : Nat) : List Event :=
  let netSelected := env.netSelected
  let nbrOfSelectedUnits := netSelected.length
  if nbrOfSelectedUnits < 1 then []
  else if c.id = CMD_ATTACK ∧
      (c.params.length = 6 ∨ (c.params.length = 4 ∧ c.GetParam 3 > 1/1000)) then
    SelectAttackNet env c
  else if nbrOfSelectedUnits = 1 then
    match env.getUnit (netSelected.headD 0) with
    | none => []
    | some u =>
      Event.order u.id c true ::
      (if MayRequireSetMaxSpeedCommand c then AddUnitSetMaxSpeedCommandNet u c.opts else []) ++
      (if c.id = CMD_WAIT ∧ player = env.myPlayerNum then [Event.ack c] else [])
  else if (c.id = CMD_MOVE ∨ c.id = CMD_FIGHT) ∧ c.params.length = 6 then
    let gd := CalculateGroupData env c.opts.shiftKey
    MakeFormationFrontOrder env gd c ++ formationSpeedLoop env gd c.opts
  else if c.id = CMD_MOVE ∧ c.opts.altKey then
    let gd := CalculateGroupData env c.opts.shiftKey
    let pos := c.GetPos 0
    let frontDir := env.anormXZ (pos - gd.groupCenterCoor)
    let sideDir := frontDir.cross ⟨0, 1, 0⟩
    let length := 100 + env.sqrtQ (nbrOfSelectedUnits : ℚ) * 32
    let c' := c.PushPos (pos + sideDir.smul length)
    MakeFormationFrontOrder env gd c' ++ formationSpeedLoop env gd c.opts
  else if c.opts.controlKey ∧ (c.id = CMD_MOVE ∨ c.id = CMD_PATROL ∨ c.id = CMD_FIGHT) then
    let gd := CalculateGroupData env c.opts.shiftKey
    netSelected.flatMap (fun uid =>
      match env.getUnit uid with
      | none => []
      | some u =>
        let midPos := unitRefPos c.opts.shiftKey u
        let difPos := midPos - gd.groupCenterCoor
        Event.order u.id { c with params := addDifPos c.params difPos } true ::
        (if ¬c.opts.altKey then AddGroupSetMaxSpeedCommandNet u c.opts gd.groupMinMaxSpeed
         else AddUnitSetMaxSpeedCommandNet u c.opts))
  else
    netSelected.flatMap (fun uid =>
      match env.getUnit uid with
      | none => []
      | some u =>
        Event.order u.id c true ::
        (if MayRequireSetMaxSpeedCommand c then AddUnitSetMaxSpeedCommandNet u c.opts
         else [])) ++
    (if c.id = CMD_WAIT ∧ player = env.myPlayerNum then [Event.ack c] else [])

instance : Zero Float3 := ⟨Float3.zero⟩

instance : AddCommMonoid Float3 where
  add_assoc a b c := by
    show Float3.mk _ _ _ = Float3.mk _ _ _
    simp only [Float3.mk.injEq]
    exact ⟨add_assoc _ _ _, add_assoc _ _ _, add_assoc _ _ _⟩
  zero_add a := by
    cases a
    show Float3.mk _ _ _ = Float3.mk _ _ _
    simp only [Float3.mk.injEq]
    exact ⟨zero_add _, zero_add _, zero_add _⟩
  add_zero a := by
    cases a
    show Float3.mk _ _ _ = Float3.mk _ _ _
    simp only [Float3.mk.injEq]
    exact ⟨add_zero _, add_zero _, add_zero _⟩
  add_comm a b := by
    show Float3.mk _ _ _ = Float3.mk _ _ _
    simp only [Float3.mk.injEq]
    exact ⟨add_comm _ _, add_comm _ _, add_comm _ _⟩
  nsmul := nsmulRec

/-- The mean of a list of positions, as the spec phrases "mean position". -/
def meanPos (l : List Float3) : Float3 := l.sum.divQ (l.length : ℚ)

/-- The selected units that resolve to live units, in selection order. -/
def resolvedUnits (env : Env) : List CUnit := env.netSelected.filterMap env.getUnit

/-- The group center used by the non-cancel branch of `SelectAttackNet`
(SelectedUnitsAI.cpp:557-573): sum of the reference positions of the
resolvable selected units divided by their count. -/
def attackMidPos (env : Env) (queueing : Bool) : Float3 :=
  ((resolvedUnits env).foldl (fun s u => s + unitRefPos queueing u) Float3.zero).divQ
    ((resolvedUnits env).length : ℚ)

/-- A run of attack orders to unit `u`, one per ranked target, all with the
same options `o`, each followed by the unit's speed-match order when its
command AI can set a wanted max speed — `AddUnitSetMaxSpeedCommandNet`
itself — and by none otherwise (spec-side closed form). -/
def attackSeqAll (u : CUnit) (o : CmdOpts) (pts : List (ℚ × Nat)) : List Event :=
  pts.flatMap (fun pt =>
    Event.order u.id ⟨CMD_ATTACK, o, [(pt.2 : ℚ)]⟩ true ::
    AddUnitSetMaxSpeedCommandNet u o)

/-- Spec-side closed form of what one speed-capable selected unit receives
in a non-queueing area attack: the first attack order non-queued
(`SHIFT_KEY` clear), all later attack orders queued, each followed by one
speed-match order, targets in ranked order. -/
def attackSeqSpec (u : CUnit) (base : CmdOpts) (pts : List (ℚ × Nat)) : List Event :=
  match pts with
  | [] => []
  | t0 :: rest =>
    attackSeqAll u { base with shiftKey := false } [t0] ++
    attackSeqAll u { base with shiftKey := true } rest

/-- The number of trace events that give exactly the command `c`. -/
def countOrders (tr : List Event) (c : Command) : Nat :=
  (tr.filter (fun e =>
    match e with
    | .order _ c2 _ => decide (c2 = c)
    | .ack _ => false)).length

/-- Whether an event is a speed-match order addressed to unit id `uid`. -/
def isSpeedOrderFor (uid : Nat) (e : Event) : Bool :=
  match e with
  | .order uid2 c2 _ => decide (uid2 = uid ∧ c2.id = CMD_SET_WANTED_MAX_SPEED)
  | .ack _ => false

/-- Fixture group data for witnesses. -/
def gd0 : GroupData := ⟨0, 0, 0, Float3.zero, Float3.zero, Float3.zero⟩

/-- Fixture environment for witnesses; individual fields are overridden per
witness. -/
def baseEnv : Env where
  getUnit := fun _ => none
  netSelected := []
  willCancelQueued := fun _ _ => false
  groundHeight := fun _ _ => 0
  dist := fun _ _ => 0
  anormXZ := fun v => v
  sqrtQ := fun _ => 0
  quadUnits := []
  validPlayer := true
  allyTeam := 0
  myPlayerNum := 0

/-- Fixture: a mobile armed unit. -/
def uA : CUnit :=
  { id := 1, midPos := ⟨10, 0, 0⟩, xsize := 2, zsize := 2, metal := 1, energy := 0,
    health := 1, maxRange := 100, canSetMaxSpeed := true, maxSpeed := 3,
    allyteam := 0, losStatus := [], commandQue := [] }

/-- Fixture: a second mobile armed unit. -/
def uB : CUnit :=
  { id := 2, midPos := ⟨20, 0, 6⟩, xsize := 2, zsize := 2, metal := 2, energy := 0,
    health := 1, maxRange := 50, canSetMaxSpeed := true, maxSpeed := 2,
    allyteam := 0, losStatus := [], commandQue := [] }

/-- Fixture: a unit whose command AI cannot set a wanted max speed. -/
def uC : CUnit :=
  { id := 2, midPos := ⟨20, 0, 6⟩, xsize := 4, zsize := 4, metal := 2, energy := 0,
    health := 1, maxRange := 50, canSetMaxSpeed := false, maxSpeed := 0,
    allyteam := 0, losStatus := [], commandQue := [] }

/-- Fixture: an enemy unit visible to ally team 0. -/
def uE : CUnit :=
  { id := 7, midPos := ⟨1, 0, 0⟩, xsize := 2, zsize := 2, metal := 1, energy := 0,
    health := 1, maxRange := 10, canSetMaxSpeed := true, maxSpeed := 1,
    allyteam := 1, losStatus := [3], commandQue := [] }

/-- Fixture: two mobile selected units and one visible enemy in the
broad-phase result. -/
def envAttack2 : Env :=
  { baseEnv with
    getUnit := fun n => if n = 1 then some uA else if n = 2 then some uB else none
    netSelected := [1, 2]
    quadUnits := [some uE] }

/-- Fixture: a mobile unit and a non-speed-capable unit selected, one
visible enemy in the broad-phase result. -/
def envAttackMixed : Env :=
  { baseEnv with
    getUnit := fun n => if n = 1 then some uA else if n = 2 then some uC else none
    netSelected := [1, 2]
    quadUnits := [some uE] }

/-- Fixture: a circular area-attack order with no modifiers. -/
def cmdAttackCircle : Command := ⟨CMD_ATTACK, ⟨false, false, false⟩, [0, 0, 0, 5]⟩

/-! ## Theorems -/

@[simp] theorem Float3.add_def (a b : Float3) :
    a + b = ⟨a.x + b.x, a.y + b.y, a.z + b.z⟩ := rfl

@[simp] theorem Float3.sub_def (a b : Float3) :
    a - b = ⟨a.x - b.x, a.y - b.y, a.z - b.z⟩ := rfl

theorem stableSortPairs_perm (l : List (ℚ × Nat)) : List.Perm (stableSortPairs l) l :=
  List.perm_insertionSort pairLE l

theorem stableSortPairs_sorted (l : List (ℚ × Nat)) :
    (stableSortPairs l).Pairwise pairLE :=
  List.sorted_insertionSort pairLE l

theorem stableSortPairs_filter (l : List (ℚ × Nat)) (p : ℚ) :
    (stableSortPairs l).filter (fun x => decide (x.1 = p)) =
      l.filter (fun x => decide (x.1 = p)) := by
  have hpw : (l.filter (fun x => decide (x.1 = p))).Pairwise pairLE := by
    apply List.pairwise_of_forall_mem_list
    intro a ha b hb
    have ha' := (List.mem_filter.mp ha).2
    have hb' := (List.mem_filter.mp hb).2
    simp only [decide_eq_true_eq] at ha' hb'
    show a.1 ≤ b.1
    rw [ha', hb']
  have hsub : List.Sublist (l.filter (fun x => decide (x.1 = p))) (stableSortPairs l) :=
    List.sublist_insertionSort hpw (List.filter_sublist l)
  have hidem : (l.filter (fun x => decide (x.1 = p))).filter (fun x => decide (x.1 = p)) =
      l.filter (fun x => decide (x.1 = p)) :=
    List.filter_eq_self.mpr (fun a ha => (List.mem_filter.mp ha).2)
  have hfil : List.Sublist (l.filter (fun x => decide (x.1 = p)))
      ((stableSortPairs l).filter (fun x => decide (x.1 = p))) := by
    have h := hsub.filter (fun x => decide (x.1 = p))
    rwa [hidem] at h
  have hlen : ((stableSortPairs l).filter (fun x => decide (x.1 = p))).length =
      (l.filter (fun x => decide (x.1 = p))).length :=
    ((stableSortPairs_perm l).filter _).length_eq
  exact (hfil.eq_of_length hlen.symm).symm

theorem flatMap_match_eq_map_filterMap {α β γ : Type} (g : α → Option β) (f : β → γ)
    (l : List α) :
    (l.flatMap (fun a => match g a with | none => [] | some u => [f u])) =
      (l.filterMap g).map f := by
  induction l with
  | nil => rfl
  | cons a l ih =>
    cases h : g a <;> simp [List.filterMap_cons, h, ih]

/-- C1: for a move/fight formation order over at least two selected units,
if the dragged front is shorter than `selectionSize + 33`, then
`MakeFormationFrontOrder` gives the original order, unmodified, to every
resolvable selected unit in selection order — the output is exactly the
broadcast of the order, and no row building or mixing happens. -/
theorem makeFormationFrontOrder_short_front_broadcasts
    (env : Env) (gd : GroupData) (c : Command)
    (hsel : 2 ≤ env.netSelected.length)
    (hkind : c.id = CMD_MOVE ∨ c.id = CMD_FIGHT)
    (hdist : IsDistance (c.GetPos 0) (c.GetPos 3) (env.dist (c.GetPos 0) (c.GetPos 3)))
    (hshort : env.dist (c.GetPos 0) (c.GetPos 3) < (env.netSelected.length : ℚ) + 33) :
    MakeFormationFrontOrder env gd c =
      (env.netSelected.filterMap env.getUnit).map (fun u => Event.order u.id c false) := by
  rw [MakeFormationFrontOrder]
  simp only [if_pos hshort]
  generalize env.netSelected = l
  induction l with
  | nil => rfl
  | cons a l ih =>
    cases h : env.getUnit a <;> simp [List.filterMap_cons, h, ih]

theorem makeFormationFrontOrder_short_front_broadcasts_witness :
    MakeFormationFrontOrder
      { baseEnv with
        getUnit := fun n => if n = 1 then some uA else if n = 2 then some uB else none
        netSelected := [1, 2]
        dist := fun _ _ => 5 }
      gd0 ⟨CMD_MOVE, ⟨false, false, false⟩, [0, 0, 0, 3, 4, 0]⟩ =
      [Event.order 1 ⟨CMD_MOVE, ⟨false, false, false⟩, [0, 0, 0, 3, 4, 0]⟩ false,
       Event.order 2 ⟨CMD_MOVE, ⟨false, false, false⟩, [0, 0, 0, 3, 4, 0]⟩ false] := by
  rw [makeFormationFrontOrder_short_front_broadcasts _ _ _ (by norm_num) (Or.inl rfl)
    (by
      constructor
      · norm_num
      · norm_num [Float3.sqLength, Command.GetPos, Command.GetParam, Float3.sub_def])
    (by norm_num)]
  rfl

/-- C2: `CreateUnitOrder` ranks every resolvable selected unit by
`((metalCost*60 + energyCost) / health) * effectiveRange` (range below 1
replaced by the constant 2000) and stable-sorts ascending: the output is a
permutation of the ranked selection, is pairwise non-decreasing in priority,
and the units of any fixed priority appear in their original selection
order. -/
theorem createUnitOrder_priority_stable_sort (env : Env) :
    List.Perm (CreateUnitOrder env)
      (env.netSelected.filterMap (fun unitID =>
        (env.getUnit unitID).map (fun u =>
          ((u.metal * 60 + u.energy) / u.health *
            (if u.maxRange < 1 then (2000 : ℚ) else u.maxRange), unitID)))) ∧
    (CreateUnitOrder env).Pairwise pairLE ∧
    ∀ p : ℚ, (CreateUnitOrder env).filter (fun x => decide (x.1 = p)) =
      (env.netSelected.filterMap (fun unitID =>
        (env.getUnit unitID).map (fun u =>
          ((u.metal * 60 + u.energy) / u.health *
            (if u.maxRange < 1 then (2000 : ℚ) else u.maxRange), unitID)))).filter
        (fun x => decide (x.1 = p)) :=
  ⟨stableSortPairs_perm _, stableSortPairs_sorted _, fun p => stableSortPairs_filter _ p⟩

/-- C4: in the non-cancel branch, the surviving targets are ranked by
squared planar distance from the group center and stable-sorted ascending:
the ranking is a permutation of the `(SqLength2D, id)` pairs, is pairwise
non-decreasing, targets of equal squared distance keep discovery order, and
concretely squared distances `[9, 1, 4]` come out ordered `[1, 4, 9]`. -/
theorem selectAttackNet_target_ranking (env : Env) (targets : List Nat) (midPos : Float3) :
    List.Perm (sortTargets env targets midPos)
      (targets.map (fun t => (Float3.sqLength2D ((getUnitD env t).midPos - midPos), t))) ∧
    (sortTargets env targets midPos).Pairwise pairLE ∧
    (∀ p : ℚ, (sortTargets env targets midPos).filter (fun x => decide (x.1 = p)) =
      (targets.map (fun t => (Float3.sqLength2D ((getUnitD env t).midPos - midPos), t))).filter
        (fun x => decide (x.1 = p))) ∧
    ∀ a b c : Nat, stableSortPairs [(9, a), (1, b), (4, c)] = [(1, b), (4, c), (9, a)] := by
  refine ⟨stableSortPairs_perm _, stableSortPairs_sorted _,
    fun p => stableSortPairs_filter _ p, ?_⟩
  intro a b c
  norm_num [stableSortPairs, List.insertionSort, List.orderedInsert, pairLE]

theorem groupFold_mobileUnits (env : Env) (q : Bool) :
    ∀ (l : List Nat) (init : GroupAccum),
    (l.foldl (groupStep env q) init).mobileUnits =
      init.mobileUnits + ((l.filterMap env.getUnit).filter (fun u => u.canSetMaxSpeed)).length := by
  intro l
  induction l with
  | nil => intro init; simp
  | cons a l ih =>
    intro init
    rw [List.foldl_cons, ih, List.filterMap_cons]
    cases h : env.getUnit a with
    | none => simp [groupStep, h]
    | some u =>
      cases hc : u.canSetMaxSpeed <;>
        simp [groupStep, h, hc, List.filter_cons] <;> omega

theorem groupFold_mobileSum (env : Env) (q : Bool) :
    ∀ (l : List Nat) (init : GroupAccum),
    (l.foldl (groupStep env q) init).mobileSumCoor =
      init.mobileSumCoor +
        (((l.filterMap env.getUnit).filter (fun u => u.canSetMaxSpeed)).map
          (unitRefPos q)).sum := by
  intro l
  induction l with
  | nil => intro init; simp
  | cons a l ih =>
    intro init
    rw [List.foldl_cons, ih, List.filterMap_cons]
    cases h : env.getUnit a with
    | none => simp [groupStep, h]
    | some u =>
      cases hc : u.canSetMaxSpeed <;>
        simp [groupStep, h, hc, List.filter_cons, add_assoc]

theorem groupFold_sum (env : Env) (q : Bool) :
    ∀ (l : List Nat) (init : GroupAccum),
    (l.foldl (groupStep env q) init).sumCoor =
      init.sumCoor + ((l.filterMap env.getUnit).map (unitRefPos q)).sum := by
  intro l
  induction l with
  | nil => intro init; simp
  | cons a l ih =>
    intro init
    rw [List.foldl_cons, ih, List.filterMap_cons]
    cases h : env.getUnit a with
    | none => simp [groupStep, h]
    | some u =>
      cases hc : u.canSetMaxSpeed <;>
        simp [groupStep, h, hc, add_assoc]

@[simp] theorem Float3.zero_def : (0 : Float3) = ⟨0, 0, 0⟩ := rfl

@[simp] theorem Float3.zero_eq : Float3.zero = ⟨0, 0, 0⟩ := rfl

theorem Float3.zero_addQ (a : Float3) : Float3.zero + a = a := zero_add a

/-- C5 (amended): `CalculateGroupData` sets the group center to the mean of
the reference positions of the resolvable mobile (speed-settable) units
whenever one exists; otherwise the center is the sum of the resolvable
units' reference positions divided by the full selection-list length, which
equals the unweighted mean over the selection's units exactly when every
selected id resolves. -/
theorem calculateGroupData_center (env : Env) (queueing : Bool) :
    ((resolvedUnits env).filter (fun u => u.canSetMaxSpeed) ≠ [] →
      (CalculateGroupData env queueing).groupCenterCoor =
        meanPos (((resolvedUnits env).filter (fun u => u.canSetMaxSpeed)).map
          (unitRefPos queueing))) ∧
    ((resolvedUnits env).filter (fun u => u.canSetMaxSpeed) = [] →
      (CalculateGroupData env queueing).groupCenterCoor =
        ((resolvedUnits env).map (unitRefPos queueing)).sum.divQ
          (env.netSelected.length : ℚ)) ∧
    ((resolvedUnits env).filter (fun u => u.canSetMaxSpeed) = [] →
      (resolvedUnits env).length = env.netSelected.length →
      (CalculateGroupData env queueing).groupCenterCoor =
        meanPos ((resolvedUnits env).map (unitRefPos queueing))) := by
  have hmu := groupFold_mobileUnits env queueing env.netSelected
  have hms := groupFold_mobileSum env queueing env.netSelected
  have hs := groupFold_sum env queueing env.netSelected
  refine ⟨?_, ?_, ?_⟩
  · intro hne
    have hpos : 0 < ((resolvedUnits env).filter (fun u => u.canSetMaxSpeed)).length :=
      List.length_pos.mpr hne
    rw [CalculateGroupData]
    simp only [resolvedUnits] at *
    rw [if_pos]
    · rw [hms, hmu]
      rw [meanPos, List.length_map, Float3.zero_addQ]
      norm_num
    · rw [hmu]
      simpa using hpos
  · intro he
    rw [CalculateGroupData]
    simp only [resolvedUnits] at *
    rw [if_neg]
    · rw [hs, Float3.zero_addQ]
    · rw [hmu]
      simp [he]
  · intro he hlen
    rw [CalculateGroupData]
    simp only [resolvedUnits] at *
    rw [if_neg]
    · rw [hs, Float3.zero_addQ, meanPos, List.length_map, hlen]
    · rw [hmu]
      simp [he]

/-- C5 counterexample: with selection `[1, 2]` where only id 1 resolves (to
an immobile unit at `(20, 0, 6)`), the non-mobile fallback divides the sum
of the resolved positions by the full selection length 2, yielding
`(10, 0, 3)` — not the unweighted mean `(20, 0, 6)` of the selection's
units. -/
theorem calculateGroupData_center_counterexample :
    (CalculateGroupData
      { baseEnv with
        getUnit := fun n => if n = 1 then some uC else none
        netSelected := [1, 2] } false).groupCenterCoor = ⟨10, 0, 3⟩ ∧
    meanPos ((resolvedUnits
      { baseEnv with
        getUnit := fun n => if n = 1 then some uC else none
        netSelected := [1, 2] }).map (unitRefPos false)) = ⟨20, 0, 6⟩ ∧
    (⟨10, 0, 3⟩ : Float3) ≠ ⟨20, 0, 6⟩ := by
  refine ⟨?_, ?_, ?_⟩
  · norm_num [CalculateGroupData, groupStep, uC, baseEnv, unitRefPos, LastQueuePosition,
      Float3.divQ, Float3.minc, Float3.maxc]
  · norm_num [meanPos, resolvedUnits, uC, baseEnv, unitRefPos, LastQueuePosition,
      Float3.divQ, List.filterMap_cons]
  · simp only [ne_eq, Float3.mk.injEq]
    norm_num

theorem calculateGroupData_center_witness :
    (CalculateGroupData
      { baseEnv with getUnit := fun n => if n = 1 then some uA else none
                     netSelected := [1] } false).groupCenterCoor = ⟨10, 0, 0⟩ := by
  rw [(calculateGroupData_center
    { baseEnv with getUnit := fun n => if n = 1 then some uA else none
                   netSelected := [1] } false).1
    (by simp [resolvedUnits, uA, baseEnv, List.filterMap_cons])]
  norm_num [meanPos, resolvedUnits, uA, baseEnv, unitRefPos, LastQueuePosition,
    Float3.divQ, List.filterMap_cons]

/-- C6 (amended): a plain order that reaches the broadcast fallback is given
once, unmodified, to every resolvable selected unit in selection order, each
copy followed by exactly one per-unit speed-match order unless the command
kind is in the exclusion set or the unit's command AI cannot set a wanted
max speed; the number of issued copies equals the number of resolvable
selected ids. -/
theorem giveCommandNet_broadcast (env : Env) (c : Command) (player : Nat)
    (hne : env.netSelected ≠ [])
    (hone : env.netSelected.length ≠ 1)
    (hatk : ¬(c.id = CMD_ATTACK ∧
      (c.params.length = 6 ∨ (c.params.length = 4 ∧ c.GetParam 3 > 1/1000))))
    (hform : ¬((c.id = CMD_MOVE ∨ c.id = CMD_FIGHT) ∧ c.params.length = 6))
    (halt : ¬(c.id = CMD_MOVE ∧ c.opts.altKey))
    (hctrl : ¬(c.opts.controlKey ∧ (c.id = CMD_MOVE ∨ c.id = CMD_PATROL ∨ c.id = CMD_FIGHT)))
    (hns : c.id ≠ CMD_SET_WANTED_MAX_SPEED) :
    GiveCommandNet env c player =
      (env.netSelected.flatMap (fun uid =>
        match env.getUnit uid with
        | none => []
        | some u =>
          Event.order u.id c true ::
          (if MayRequireSetMaxSpeedCommand c ∧ u.canSetMaxSpeed then
            [Event.order u.id ⟨CMD_SET_WANTED_MAX_SPEED, c.opts, [u.maxSpeed]⟩ true]
          else []))) ++
      (if c.id = CMD_WAIT ∧ player = env.myPlayerNum then [Event.ack c] else []) ∧
    countOrders (GiveCommandNet env c player) c = (resolvedUnits env).length := by
  have hlt : ¬(env.netSelected.length < 1) := by
    have := List.length_pos.mpr hne
    omega
  have hmain : GiveCommandNet env c player =
      (env.netSelected.flatMap (fun uid =>
        match env.getUnit uid with
        | none => []
        | some u =>
          Event.order u.id c true ::
          (if MayRequireSetMaxSpeedCommand c ∧ u.canSetMaxSpeed then
            [Event.order u.id ⟨CMD_SET_WANTED_MAX_SPEED, c.opts, [u.maxSpeed]⟩ true]
          else []))) ++
      (if c.id = CMD_WAIT ∧ player = env.myPlayerNum then [Event.ack c] else []) := by
    rw [GiveCommandNet]
    rw [if_neg hlt, if_neg hatk, if_neg hone, if_neg hform, if_neg halt, if_neg hctrl]
    congr 1
    apply List.flatMap_congr
    intro uid _
    cases h : env.getUnit uid with
    | none => rfl
    | some u =>
      simp only []
      congr 1
      by_cases hmay : MayRequireSetMaxSpeedCommand c
      · cases hcan : u.canSetMaxSpeed <;>
          simp [hmay, hcan, AddUnitSetMaxSpeedCommandNet]
      · simp [hmay]
  refine ⟨hmain, ?_⟩
  rw [hmain]
  rw [countOrders, List.filter_append, List.length_append]
  have htail : (List.filter (fun e =>
      match e with
      | .order _ c2 _ => decide (c2 = c)
      | .ack _ => false)
      (if c.id = CMD_WAIT ∧ player = env.myPlayerNum then [Event.ack c] else [])).length = 0 := by
    by_cases hw : c.id = CMD_WAIT ∧ player = env.myPlayerNum <;> simp [hw]
  rw [htail, Nat.add_zero, resolvedUnits]
  generalize env.netSelected = l
  induction l with
  | nil => rfl
  | cons a l ih =>
    rw [List.flatMap_cons, List.filter_append, List.length_append, ih, List.filterMap_cons]
    cases h : env.getUnit a with
    | none => simp
    | some u =>
      have hspeed : decide ((⟨CMD_SET_WANTED_MAX_SPEED, c.opts, [u.maxSpeed]⟩ : Command) = c)
          = false := by
        simp only [decide_eq_false_iff_not]
        intro hcontra
        exact hns (by rw [← hcontra])
      by_cases hif : MayRequireSetMaxSpeedCommand c ∧ u.canSetMaxSpeed = true <;>
        simp [hif, hspeed] <;> omega

/-- C6 counterexample: a plain move order broadcast to units 1 (mobile) and
2 (whose command AI cannot set a wanted max speed) issues no speed-match
order to unit 2, although move is not in the exclusion set — the claim's
"exactly one speed-match per resolvable unit unless excluded kind" fails. -/
theorem giveCommandNet_broadcast_counterexample :
    GiveCommandNet
      { baseEnv with
        getUnit := fun n => if n = 1 then some uA else if n = 2 then some uC else none
        netSelected := [1, 2] }
      ⟨CMD_MOVE, ⟨false, false, false⟩, [30, 0, 40]⟩ 0 =
      [Event.order 1 ⟨CMD_MOVE, ⟨false, false, false⟩, [30, 0, 40]⟩ true,
       Event.order 1 ⟨CMD_SET_WANTED_MAX_SPEED, ⟨false, false, false⟩, [3]⟩ true,
       Event.order 2 ⟨CMD_MOVE, ⟨false, false, false⟩, [30, 0, 40]⟩ true] ∧
    MayRequireSetMaxSpeedCommand ⟨CMD_MOVE, ⟨false, false, false⟩, [30, 0, 40]⟩ = true ∧
    (GiveCommandNet
      { baseEnv with
        getUnit := fun n => if n = 1 then some uA else if n = 2 then some uC else none
        netSelected := [1, 2] }
      ⟨CMD_MOVE, ⟨false, false, false⟩, [30, 0, 40]⟩ 0).countP (isSpeedOrderFor 2) = 0 :=
  ⟨rfl, rfl, rfl⟩

theorem giveCommandNet_broadcast_witness :
    GiveCommandNet
      { baseEnv with
        getUnit := fun n => if n = 1 then some uA else if n = 2 then some uB else none
        netSelected := [1, 2] }
      ⟨CMD_MOVE, ⟨false, false, false⟩, [30, 0, 40]⟩ 0 =
      [Event.order 1 ⟨CMD_MOVE, ⟨false, false, false⟩, [30, 0, 40]⟩ true,
       Event.order 1 ⟨CMD_SET_WANTED_MAX_SPEED, ⟨false, false, false⟩, [3]⟩ true,
       Event.order 2 ⟨CMD_MOVE, ⟨false, false, false⟩, [30, 0, 40]⟩ true,
       Event.order 2 ⟨CMD_SET_WANTED_MAX_SPEED, ⟨false, false, false⟩, [2]⟩ true] ∧
    countOrders
      (GiveCommandNet
        { baseEnv with
          getUnit := fun n => if n = 1 then some uA else if n = 2 then some uB else none
          netSelected := [1, 2] }
        ⟨CMD_MOVE, ⟨false, false, false⟩, [30, 0, 40]⟩ 0)
      ⟨CMD_MOVE, ⟨false, false, false⟩, [30, 0, 40]⟩ = 2 := by
  obtain ⟨h1, h2⟩ := giveCommandNet_broadcast
    { baseEnv with
      getUnit := fun n => if n = 1 then some uA else if n = 2 then some uB else none
      netSelected := [1, 2] }
    ⟨CMD_MOVE, ⟨false, false, false⟩, [30, 0, 40]⟩ 0
    (by decide) (by decide) (by decide) (by decide) (by decide) (by decide) (by decide)
  refine ⟨?_, ?_⟩
  · rw [h1]; rfl
  · rw [h2]; rfl

/-- C7: with the control modifier set, an area attack is a pure cancel
pass: the trace consists exactly of one queued (`SHIFT_KEY`-set) attack
command per (selected unit, candidate target) pair whose queueing would
cancel an already-queued attack; every emitted event is such a command (so
no speed-match or other orders are added), and a resolvable unit for which
no candidate target would cancel contributes no event at all. -/
theorem selectAttackNet_control_cancels (env : Env) (cmd : Command)
    (hctrl : cmd.opts.controlKey = true) :
    SelectAttackNet env cmd =
      env.netSelected.flatMap (fun uid =>
        match env.getUnit uid with
        | none => []
        | some u => (attackTargets env cmd).filterMap (fun t =>
            if env.willCancelQueued u (ctrlAttackCmd cmd t) then
              some (Event.order u.id (ctrlAttackCmd cmd t) true)
            else none)) ∧
    (∀ e ∈ SelectAttackNet env cmd, ∃ uid ∈ env.netSelected, ∃ u,
      env.getUnit uid = some u ∧
      ∃ t ∈ attackTargets env cmd, env.willCancelQueued u (ctrlAttackCmd cmd t) = true ∧
        e = Event.order u.id (ctrlAttackCmd cmd t) true) ∧
    (∀ uid u, env.getUnit uid = some u →
      (∀ t ∈ attackTargets env cmd, env.willCancelQueued u (ctrlAttackCmd cmd t) = false) →
      (attackTargets env cmd).filterMap (fun t =>
        if env.willCancelQueued u (ctrlAttackCmd cmd t) then
          some (Event.order u.id (ctrlAttackCmd cmd t) true)
        else none) = []) := by
  have hmain : SelectAttackNet env cmd =
      env.netSelected.flatMap (fun uid =>
        match env.getUnit uid with
        | none => []
        | some u => (attackTargets env cmd).filterMap (fun t =>
            if env.willCancelQueued u (ctrlAttackCmd cmd t) then
              some (Event.order u.id (ctrlAttackCmd cmd t) true)
            else none)) := by
    rw [SelectAttackNet]
    by_cases ht : attackTargets env cmd = []
    · rw [if_pos ht]
      symm
      apply List.flatMap_eq_nil_iff.mpr
      intro uid _
      cases h : env.getUnit uid <;> simp [ht, h]
    · rw [if_neg ht]
      by_cases hsel : env.netSelected.length = 0
      · rw [if_pos hsel]
        rw [List.length_eq_zero] at hsel
        rw [hsel]
        rfl
      · rw [if_neg hsel, if_pos hctrl]
  refine ⟨hmain, ?_, ?_⟩
  · intro e he
    rw [hmain] at he
    obtain ⟨uid, huid, he⟩ := List.mem_flatMap.mp he
    refine ⟨uid, huid, ?_⟩
    cases h : env.getUnit uid with
    | none => rw [h] at he; exact absurd he (List.not_mem_nil e)
    | some u =>
      rw [h] at he
      obtain ⟨t, ht, hsome⟩ := List.mem_filterMap.mp he
      refine ⟨u, rfl, t, ht, ?_⟩
      by_cases hw : env.willCancelQueued u (ctrlAttackCmd cmd t)
      · rw [if_pos hw] at hsome
        exact ⟨hw, (Option.some_inj.mp hsome).symm⟩
      · rw [if_neg hw] at hsome
        exact absurd hsome (by simp)
  · intro uid u _ hfalse
    apply List.filterMap_eq_nil_iff.mpr
    intro t ht
    rw [if_neg]
    simp [hfalse t ht]

theorem selectAttackNet_control_cancels_witness :
    SelectAttackNet
      { baseEnv with
        getUnit := fun n => if n = 1 then some uA else none
        netSelected := [1]
        willCancelQueued := fun _ _ => true
        quadUnits := [some uE] }
      ⟨CMD_ATTACK, ⟨false, true, false⟩, [0, 0, 0, 5]⟩ =
      [Event.order 1 (ctrlAttackCmd ⟨CMD_ATTACK, ⟨false, true, false⟩, [0, 0, 0, 5]⟩ 7) true] := by
  rw [(selectAttackNet_control_cancels
    { baseEnv with
      getUnit := fun n => if n = 1 then some uA else none
      netSelected := [1]
      willCancelQueued := fun _ _ => true
      quadUnits := [some uE] }
    ⟨CMD_ATTACK, ⟨false, true, false⟩, [0, 0, 0, 5]⟩ rfl).1]
  have ht : attackTargets
      { baseEnv with
        getUnit := fun n => if n = 1 then some uA else none
        netSelected := [1]
        willCancelQueued := fun _ _ => true
        quadUnits := [some uE] }
      ⟨CMD_ATTACK, ⟨false, true, false⟩, [0, 0, 0, 5]⟩ = [7] := by
    norm_num [attackTargets, SelectCircleUnits, losVisible, uE, baseEnv,
      Command.GetPos, Command.GetParam, List.filterMap_cons]
    decide
  rw [ht]
  rfl

/-- C8: the division guards hold — an empty selection makes
`GiveCommandNet` return with no orders before any group geometry (whose
divisor, the selection length, is then nonzero whenever geometry is
reached), and the attack-center division of `SelectAttackNet` is unreachable
when no selected id resolves: the call then issues no orders at all. -/
theorem divisions_guarded (env : Env) (c cmd : Command) (player : Nat) :
    (env.netSelected = [] → GiveCommandNet env c player = []) ∧
    (env.netSelected ≠ [] → ((env.netSelected.length : ℚ) ≠ 0)) ∧
    (resolvedUnits env = [] → SelectAttackNet env cmd = []) := by
  refine ⟨?_, ?_, ?_⟩
  · intro h
    rw [GiveCommandNet, if_pos]
    rw [h]
    decide
  · intro h
    have : env.netSelected.length ≠ 0 := fun hc => h (List.length_eq_zero.mp hc)
    exact_mod_cast Nat.cast_ne_zero.mpr this
  · intro hres
    rw [resolvedUnits] at hres
    rw [SelectAttackNet]
    by_cases ht : attackTargets env cmd = []
    · rw [if_pos ht]
    · rw [if_neg ht]
      by_cases hs0 : env.netSelected.length = 0
      · rw [if_pos hs0]
      · rw [if_neg hs0]
        by_cases hc : cmd.opts.controlKey
        · rw [if_pos hc]
          apply List.flatMap_eq_nil_iff.mpr
          intro uid huid
          rw [List.filterMap_eq_nil_iff.mp hres uid huid]
        · rw [if_neg hc, hres]
          simp

theorem divisions_guarded_witness :
    GiveCommandNet { baseEnv with netSelected := [] }
      ⟨CMD_MOVE, ⟨false, false, false⟩, [30, 0, 40]⟩ 0 = [] ∧
    ((({ baseEnv with netSelected := [1, 2] } : Env).netSelected.length : ℚ) ≠ 0) ∧
    SelectAttackNet
      { baseEnv with netSelected := [1], quadUnits := [some uE] }
      ⟨CMD_ATTACK, ⟨false, false, false⟩, [0, 0, 0, 5]⟩ = [] :=
  ⟨(divisions_guarded { baseEnv with netSelected := [] }
      ⟨CMD_MOVE, ⟨false, false, false⟩, [30, 0, 40]⟩
      ⟨CMD_MOVE, ⟨false, false, false⟩, [30, 0, 40]⟩ 0).1 rfl,
   (divisions_guarded { baseEnv with netSelected := [1, 2] }
      ⟨CMD_MOVE, ⟨false, false, false⟩, [30, 0, 40]⟩
      ⟨CMD_MOVE, ⟨false, false, false⟩, [30, 0, 40]⟩ 0).2.1 (by decide),
   (divisions_guarded { baseEnv with netSelected := [1], quadUnits := [some uE] }
      ⟨CMD_MOVE, ⟨false, false, false⟩, [30, 0, 40]⟩
      ⟨CMD_ATTACK, ⟨false, false, false⟩, [0, 0, 0, 5]⟩ 0).2.2 rfl⟩

/-- C10: when the short-front fallback of `MakeFormationFrontOrder` does not
trigger, the `formationSideDir` passed to `MoveToPos` has y-component
exactly the front distance `dist(formationCenterPos, formationRightPos)`,
which is at least `selectionSize + 33` and hence strictly positive — the
divisions by `formationDir.y` in the front-local projection never divide by
zero despite the absence of an explicit guard. -/
theorem moveToPos_divisor_positive (env : Env) (c : Command)
    (hdist : IsDistance (c.GetPos 0) (c.GetPos 3) (env.dist (c.GetPos 0) (c.GetPos 3)))
    (hlong : ¬(env.dist (c.GetPos 0) (c.GetPos 3) < (env.netSelected.length : ℚ) + 33)) :
    (formationSideDirOf c (env.dist (c.GetPos 0) (c.GetPos 3))).y =
      env.dist (c.GetPos 0) (c.GetPos 3) ∧
    (env.netSelected.length : ℚ) + 33 ≤ env.dist (c.GetPos 0) (c.GetPos 3) ∧
    0 < (formationSideDirOf c (env.dist (c.GetPos 0) (c.GetPos 3))).y ∧
    (formationSideDirOf c (env.dist (c.GetPos 0) (c.GetPos 3))).y ≠ 0 := by
  have hy : (formationSideDirOf c (env.dist (c.GetPos 0) (c.GetPos 3))).y =
      env.dist (c.GetPos 0) (c.GetPos 3) := by
    show env.dist (c.GetPos 0) (c.GetPos 3) * 2 * (1/2) = _
    ring
  have hle : (env.netSelected.length : ℚ) + 33 ≤ env.dist (c.GetPos 0) (c.GetPos 3) :=
    not_lt.mp hlong
  have hpos : 0 < env.dist (c.GetPos 0) (c.GetPos 3) := by
    have hcast : (0 : ℚ) ≤ (env.netSelected.length : ℚ) := Nat.cast_nonneg _
    linarith
  exact ⟨hy, hle, by rw [hy]; exact hpos, by rw [hy]; exact ne_of_gt hpos⟩

theorem moveToPos_divisor_positive_witness :
    (formationSideDirOf ⟨CMD_MOVE, ⟨false, false, false⟩, [0, 0, 0, 40, 0, 0]⟩
      (({ baseEnv with netSelected := [1, 2], dist := fun _ _ => 40 } : Env).dist
        ((⟨CMD_MOVE, ⟨false, false, false⟩, [0, 0, 0, 40, 0, 0]⟩ : Command).GetPos 0)
        ((⟨CMD_MOVE, ⟨false, false, false⟩, [0, 0, 0, 40, 0, 0]⟩ : Command).GetPos 3))).y =
      ({ baseEnv with netSelected := [1, 2], dist := fun _ _ => 40 } : Env).dist
        ((⟨CMD_MOVE, ⟨false, false, false⟩, [0, 0, 0, 40, 0, 0]⟩ : Command).GetPos 0)
        ((⟨CMD_MOVE, ⟨false, false, false⟩, [0, 0, 0, 40, 0, 0]⟩ : Command).GetPos 3) ∧
    ((({ baseEnv with netSelected := [1, 2], dist := fun _ _ => 40 } : Env).netSelected.length : ℚ))
      + 33 ≤ 40 ∧
    (0 : ℚ) <
      (formationSideDirOf ⟨CMD_MOVE, ⟨false, false, false⟩, [0, 0, 0, 40, 0, 0]⟩ 40).y ∧
    (formationSideDirOf ⟨CMD_MOVE, ⟨false, false, false⟩, [0, 0, 0, 40, 0, 0]⟩ 40).y ≠ 0 :=
  moveToPos_divisor_positive
    { baseEnv with netSelected := [1, 2], dist := fun _ _ => 40 }
    ⟨CMD_MOVE, ⟨false, false, false⟩, [0, 0, 0, 40, 0, 0]⟩
    (by
      constructor
      · norm_num
      · norm_num [Float3.sqLength, Command.GetPos, Command.GetParam, Float3.sub_def])
    (by norm_num)

theorem attackSeqAll_cons (u : CUnit) (o : CmdOpts) (x : ℚ × Nat) (l : List (ℚ × Nat)) :
    attackSeqAll u o (x :: l) = attackSeqAll u o [x] ++ attackSeqAll u o l := by
  simp [attackSeqAll]

theorem attackInner_noqueue (wcq : CUnit → Command → Bool) (u : CUnit) :
    ∀ (pts : List (ℚ × Nat)) (o : CmdOpts) (ps : List ℚ), ∃ ps2 : List ℚ,
    (attackInner wcq false u pts ⟨CMD_ATTACK, o, ps⟩).1 =
      (match pts with
        | [] => ([] : List Event)
        | t :: rest =>
          attackSeqAll u o [t] ++ attackSeqAll u { o with shiftKey := true } rest) ∧
    (attackInner wcq false u pts ⟨CMD_ATTACK, o, ps⟩).2 =
      ⟨CMD_ATTACK, if pts = [] then o else { o with shiftKey := true }, ps2⟩ := by
  intro pts
  induction pts with
  | nil =>
    intro o ps
    exact ⟨ps, by simp [attackInner], by simp [attackInner]⟩
  | cons t rest ih =>
    intro o ps
    obtain ⟨ps2, h1, h2⟩ := ih { o with shiftKey := true } [(t.2 : ℚ)]
    refine ⟨ps2, ?_, ?_⟩
    · rw [attackInner]
      simp only [Bool.false_eq_true, false_and, if_false]
      rw [h1]
      cases rest with
      | nil =>
        simp [attackSeqAll]
      | cons t2 r2 =>
        rw [attackSeqAll_cons u { o with shiftKey := true } t2 r2]
        simp [attackSeqAll]
    · rw [attackInner]
      simp only [Bool.false_eq_true, false_and, if_false]
      rw [h2]
      cases rest with
      | nil => simp
      | cons t2 r2 => simp

theorem attackOuter_noqueue (env : Env) (pts : List (ℚ × Nat)) (alt ctrl : Bool) :
    ∀ (sel : List Nat) (ac : Command),
    ac.id = CMD_ATTACK → ac.opts.altKey = alt → ac.opts.controlKey = ctrl →
    attackOuter env false pts sel ac =
      sel.flatMap (fun uid =>
        match env.getUnit uid with
        | none => []
        | some u => attackSeqSpec u ⟨alt, ctrl, false⟩ pts) := by
  intro sel
  induction sel with
  | nil => intro ac _ _ _; rfl
  | cons uid rest ih =>
    intro ac hid halt hctrl
    have hclear : ({ ac with opts := { ac.opts with shiftKey := false } } : Command) =
        ⟨CMD_ATTACK, ⟨alt, ctrl, false⟩, ac.params⟩ := by
      cases ac with
      | mk i o p =>
        cases o with
        | mk a c s => simp_all
    rw [attackOuter]
    simp only [Bool.false_eq_true, not_false_eq_true, if_true, hclear]
    rw [List.flatMap_cons]
    cases h : env.getUnit uid with
    | none =>
      simp only []
      rw [ih ⟨CMD_ATTACK, ⟨alt, ctrl, false⟩, ac.params⟩ rfl rfl rfl]
      rw [List.nil_append]
    | some u =>
      obtain ⟨ps2, h1, h2⟩ :=
        attackInner_noqueue env.willCancelQueued u pts ⟨alt, ctrl, false⟩ ac.params
      simp only []
      rw [h1, h2]
      rw [ih ⟨CMD_ATTACK,
          if pts = [] then (⟨alt, ctrl, false⟩ : CmdOpts)
          else { (⟨alt, ctrl, false⟩ : CmdOpts) with shiftKey := true }, ps2⟩
        rfl (by cases pts <;> rfl) (by cases pts <;> rfl)]
      congr 1

/-- C3 counterexample: in a non-queueing area attack over two units and one
target, the attack command issued to the second unit — the third command of
the operation — is non-queued (`SHIFT_KEY` clear) as well, because the code
clears the flag at the top of every selected unit's loop; so it is false
that every attack command after the very first of the whole operation is
queued.  Moreover, with a selection whose second unit cannot set a wanted
max speed, that unit's attack command is followed by no speed-match order
at all, refuting the unconditional "each issued attack command is followed
by one speed-match order". -/
theorem selectAttackNet_first_nonqueued_counterexample :
    SelectAttackNet envAttack2 cmdAttackCircle =
      [Event.order 1 ⟨CMD_ATTACK, ⟨false, false, false⟩, [((7 : ℕ) : ℚ)]⟩ true,
       Event.order 1 ⟨CMD_SET_WANTED_MAX_SPEED, ⟨false, false, false⟩, [3]⟩ true,
       Event.order 2 ⟨CMD_ATTACK, ⟨false, false, false⟩, [((7 : ℕ) : ℚ)]⟩ true,
       Event.order 2 ⟨CMD_SET_WANTED_MAX_SPEED, ⟨false, false, false⟩, [2]⟩ true] ∧
    (SelectAttackNet envAttack2 cmdAttackCircle).getD 2 (Event.ack cmdAttackCircle) =
      Event.order 2 ⟨CMD_ATTACK, ⟨false, false, false⟩, [((7 : ℕ) : ℚ)]⟩ true ∧
    SelectAttackNet envAttackMixed cmdAttackCircle =
      [Event.order 1 ⟨CMD_ATTACK, ⟨false, false, false⟩, [((7 : ℕ) : ℚ)]⟩ true,
       Event.order 1 ⟨CMD_SET_WANTED_MAX_SPEED, ⟨false, false, false⟩, [3]⟩ true,
       Event.order 2 ⟨CMD_ATTACK, ⟨false, false, false⟩, [((7 : ℕ) : ℚ)]⟩ true] ∧
    (SelectAttackNet envAttackMixed cmdAttackCircle).countP (isSpeedOrderFor 2) = 0 := by
  have ht : attackTargets envAttack2 cmdAttackCircle = [7] := by
    norm_num [attackTargets, SelectCircleUnits, losVisible, uE, baseEnv, envAttack2,
      cmdAttackCircle, Command.GetPos, Command.GetParam, List.filterMap_cons]
    decide
  have htm : attackTargets envAttackMixed cmdAttackCircle = [7] := by
    norm_num [attackTargets, SelectCircleUnits, losVisible, uE, baseEnv, envAttackMixed,
      cmdAttackCircle, Command.GetPos, Command.GetParam, List.filterMap_cons]
    decide
  have h1 : SelectAttackNet envAttack2 cmdAttackCircle =
      [Event.order 1 ⟨CMD_ATTACK, ⟨false, false, false⟩, [((7 : ℕ) : ℚ)]⟩ true,
       Event.order 1 ⟨CMD_SET_WANTED_MAX_SPEED, ⟨false, false, false⟩, [3]⟩ true,
       Event.order 2 ⟨CMD_ATTACK, ⟨false, false, false⟩, [((7 : ℕ) : ℚ)]⟩ true,
       Event.order 2 ⟨CMD_SET_WANTED_MAX_SPEED, ⟨false, false, false⟩, [2]⟩ true] := by
    rw [SelectAttackNet, ht]
    rfl
  have h2 : SelectAttackNet envAttackMixed cmdAttackCircle =
      [Event.order 1 ⟨CMD_ATTACK, ⟨false, false, false⟩, [((7 : ℕ) : ℚ)]⟩ true,
       Event.order 1 ⟨CMD_SET_WANTED_MAX_SPEED, ⟨false, false, false⟩, [3]⟩ true,
       Event.order 2 ⟨CMD_ATTACK, ⟨false, false, false⟩, [((7 : ℕ) : ℚ)]⟩ true] := by
    rw [SelectAttackNet, htm]
    rfl
  exact ⟨h1, by rw [h1]; rfl, h2, by rw [h2]; rfl⟩

/-- C3 (amended): in a non-queueing, non-control area attack, each
resolvable selected unit receives, in selection order, one attack command
per ranked target in ascending-distance order — the first attack command TO
EACH UNIT non-queued and all its later ones queued — each attack command
immediately followed by the unit's speed-match order carrying the same
options when its command AI can set a wanted max speed, and by none
otherwise; the ranked target list is pairwise non-decreasing in squared
distance. -/
theorem selectAttackNet_noqueue_per_unit (env : Env) (cmd : Command)
    (hshift : cmd.opts.shiftKey = false)
    (hctrl : cmd.opts.controlKey = false) :
    SelectAttackNet env cmd =
      env.netSelected.flatMap (fun uid =>
        match env.getUnit uid with
        | none => []
        | some u => attackSeqSpec u cmd.opts
            (sortTargets env (attackTargets env cmd) (attackMidPos env false))) ∧
    (sortTargets env (attackTargets env cmd) (attackMidPos env false)).Pairwise pairLE := by
  refine ⟨?_, stableSortPairs_sorted _⟩
  rw [SelectAttackNet]
  by_cases ht : attackTargets env cmd = []
  · rw [if_pos ht, ht]
    symm
    apply List.flatMap_eq_nil_iff.mpr
    intro uid _
    cases h : env.getUnit uid <;>
      simp [sortTargets, stableSortPairs, List.insertionSort, attackSeqSpec]
  · rw [if_neg ht]
    by_cases hs0 : env.netSelected.length = 0
    · rw [if_pos hs0]
      rw [List.length_eq_zero] at hs0
      rw [hs0]
      rfl
    · rw [if_neg hs0]
      rw [if_neg (show ¬cmd.opts.controlKey = true by simp [hctrl])]
      simp only [hshift]
      by_cases hr : (env.netSelected.filterMap env.getUnit).length = 0
      · rw [if_pos hr]
        rw [List.length_eq_zero] at hr
        symm
        apply List.flatMap_eq_nil_iff.mpr
        intro uid huid
        rw [List.filterMap_eq_nil_iff.mp hr uid huid]
      · rw [if_neg hr]
        rw [attackOuter_noqueue env _ cmd.opts.altKey cmd.opts.controlKey env.netSelected
          ⟨CMD_ATTACK, cmd.opts, [0]⟩ rfl rfl rfl]
        rfl

theorem selectAttackNet_noqueue_per_unit_witness :
    SelectAttackNet envAttackMixed cmdAttackCircle =
      envAttackMixed.netSelected.flatMap (fun uid =>
        match envAttackMixed.getUnit uid with
        | none => []
        | some u => attackSeqSpec u cmdAttackCircle.opts
            (sortTargets envAttackMixed (attackTargets envAttackMixed cmdAttackCircle)
              (attackMidPos envAttackMixed false))) :=
  (selectAttackNet_noqueue_per_unit envAttackMixed cmdAttackCircle rfl rfl).1

theorem groupVal_lt_one (c m : ℕ) (h : c < m) : groupVal c m < 1 := by
  rw [groupVal]
  rw [div_lt_one (by exact_mod_cast Nat.pos_of_ne_zero (by omega))]
  have hc : (c : ℚ) + 1 ≤ (m : ℚ) := by exact_mod_cast Nat.succ_le_of_lt h
  linarith

theorem pick_go (sizes counts : List Nat) :
    ∀ (L : List Nat) (st : Nat × ℚ),
    st.2 ≤ 1 → (st.2 < 1 → counts.getD st.1 0 < sizes.getD st.1 0) →
    (L.foldl (pickStep sizes counts) st).2 ≤ 1 ∧
    ((L.foldl (pickStep sizes counts) st).2 < 1 →
      counts.getD (L.foldl (pickStep sizes counts) st).1 0 <
        sizes.getD (L.foldl (pickStep sizes counts) st).1 0) ∧
    (((∃ i ∈ L, counts.getD i 0 < sizes.getD i 0) ∨ st.2 < 1) →
      (L.foldl (pickStep sizes counts) st).2 < 1) := by
  intro L
  induction L with
  | nil =>
    intro st h1 h2
    refine ⟨h1, h2, ?_⟩
    rintro (⟨i, hi, _⟩ | hlt)
    · exact absurd hi (List.not_mem_nil i)
    · exact hlt
  | cons gn L ih =>
    intro st h1 h2
    rw [List.foldl_cons]
    by_cases hq : sizes.getD gn 0 ≤ counts.getD gn 0
    · have hstep : pickStep sizes counts st gn = st := by
        rw [pickStep, if_pos hq]
      rw [hstep]
      obtain ⟨g1, g2, g3⟩ := ih st h1 h2
      refine ⟨g1, g2, ?_⟩
      rintro (⟨i, hi, hQi⟩ | hlt)
      · rcases List.mem_cons.mp hi with rfl | hi2
        · omega
        · exact g3 (Or.inl ⟨i, hi2, hQi⟩)
      · exact g3 (Or.inr hlt)
    · push_neg at hq
      have hgv : groupVal (counts.getD gn 0) (sizes.getD gn 0) < 1 := groupVal_lt_one _ _ hq
      by_cases hge : groupVal (counts.getD gn 0) (sizes.getD gn 0) ≥ st.2
      · have hstep : pickStep sizes counts st gn = st := by
          rw [pickStep, if_neg (by omega), if_pos hge]
        rw [hstep]
        have hlt1 : st.2 < 1 := lt_of_le_of_lt hge hgv
        obtain ⟨g1, g2, g3⟩ := ih st h1 h2
        exact ⟨g1, g2, fun _ => g3 (Or.inr hlt1)⟩
      · push_neg at hge
        have hstep : pickStep sizes counts st gn =
            (gn, groupVal (counts.getD gn 0) (sizes.getD gn 0)) := by
          rw [pickStep, if_neg (by omega), if_neg (by push_neg; exact hge)]
        rw [hstep]
        obtain ⟨g1, g2, g3⟩ := ih (gn, groupVal (counts.getD gn 0) (sizes.getD gn 0))
          (le_of_lt hgv) (fun _ => hq)
        exact ⟨g1, g2, fun _ => g3 (Or.inr hgv)⟩

theorem pickBucket_qualifies (sizes counts : List Nat)
    (hex : ∃ i, counts.getD i 0 < sizes.getD i 0) :
    counts.getD (pickBucket sizes counts) 0 < sizes.getD (pickBucket sizes counts) 0 := by
  obtain ⟨i, hi⟩ := hex
  have hilen : i < sizes.length := by
    by_contra hge
    rw [List.getD_eq_default _ _ (le_of_not_lt hge)] at hi
    omega
  obtain ⟨g1, g2, g3⟩ := pick_go sizes counts (List.range sizes.length) (0, 1)
    le_rfl (fun h => absurd h (lt_irrefl 1))
  have hq := g2 (g3 (Or.inl ⟨i, List.mem_range.mpr hilen, hi⟩))
  rw [pickBucket]
  exact hq

theorem getD_set_lemma (counts : List Nat) (b v i : Nat) (hb : b < counts.length) :
    (counts.set b v).getD i 0 = if i = b then v else counts.getD i 0 := by
  by_cases h : i = b
  · subst h
    rw [if_pos rfl, List.getD_eq_getElem?_getD, List.getElem?_set_self (by omega)]
    rfl
  · rw [if_neg h, List.getD_eq_getElem?_getD, List.getD_eq_getElem?_getD,
      List.getElem?_set_ne (fun hc => h hc.symm)]

theorem sizes_getD (bs : List (List Nat)) : ∀ b,
    (bs.map List.length).getD b 0 = (bs.getD b []).length := by
  induction bs with
  | nil => intro b; simp
  | cons x bs ih =>
    intro b
    cases b with
    | zero => simp
    | succ i => simpa using ih i

theorem remJoin_nil_counts : ∀ bs : List (List Nat), remJoin bs [] = bs.join := by
  intro bs
  induction bs with
  | nil => rfl
  | cons x bs ih => rw [remJoin]; simp [ih]

theorem remJoin_replicate : ∀ (bs : List (List Nat)) (n : Nat),
    remJoin bs (List.replicate n 0) = bs.join := by
  intro bs
  induction bs with
  | nil => intro n; rfl
  | cons x bs ih =>
    intro n
    cases n with
    | zero => exact remJoin_nil_counts _
    | succ n =>
      rw [List.replicate_succ, remJoin]
      simp [ih n]

theorem remJoin_ne_nil_exists (bs : List (List Nat)) :
    ∀ counts, counts.length = bs.length → remJoin bs counts ≠ [] →
    ∃ i, counts.getD i 0 < (bs.map List.length).getD i 0 := by
  induction bs with
  | nil =>
    intro counts _ h
    exact absurd rfl h
  | cons x bs ih =>
    intro counts hlen hne
    cases counts with
    | nil => simp at hlen
    | cons c cs =>
      by_cases hc : c < x.length
      · exact ⟨0, by simpa using hc⟩
      · push_neg at hc
        have hdrop : x.drop c = [] := List.drop_eq_nil_of_le hc
        rw [remJoin] at hne
        simp only [List.headD_cons, List.tail_cons, hdrop, List.nil_append] at hne
        obtain ⟨i, hi⟩ := ih cs (by simpa using hlen) hne
        exact ⟨i + 1, by simpa using hi⟩

theorem remJoin_step : ∀ (bs : List (List Nat)) (counts : List Nat) (b : Nat),
    counts.length = bs.length →
    counts.getD b 0 < (bs.getD b []).length →
    List.Perm (remJoin bs counts)
      ((bs.getD b []).getD (counts.getD b 0) 0 ::
        remJoin bs (counts.set b (counts.getD b 0 + 1))) := by
  intro bs
  induction bs with
  | nil =>
    intro counts b _ hb
    simp at hb
  | cons x bs ih =>
    intro counts b hlen hb
    cases counts with
    | nil => simp at hlen
    | cons c cs =>
      cases b with
      | zero =>
        simp only [List.getD_cons_zero] at hb ⊢
        rw [remJoin, remJoin]
        simp only [List.headD_cons, List.tail_cons, List.set_cons_zero,
          List.getD_cons_zero]
        rw [List.drop_eq_getElem_cons hb, List.getD_eq_getElem x 0 hb]
        exact List.Perm.refl _
      | succ i =>
        simp only [List.getD_cons_succ] at hb ⊢
        rw [remJoin]
        have hperm := ih cs i (by simpa using hlen) hb
        rw [List.set_cons_succ, remJoin]
        simp only [List.headD_cons, List.tail_cons]
        exact (hperm.append_left (x.drop c)).trans List.perm_middle

theorem mix_main : ∀ (n : Nat) (bs : List (List Nat)) (counts : List Nat),
    counts.length = bs.length →
    (∀ i, counts.getD i 0 ≤ (bs.map List.length).getD i 0) →
    n = (remJoin bs counts).length →
    List.Perm (mixUnits bs n counts) (remJoin bs counts) ∧
    (∀ j, j ≤ n → ∀ i,
      (mixCounts bs j counts).getD i 0 ≤ (bs.map List.length).getD i 0) := by
  intro n
  induction n with
  | zero =>
    intro bs counts hlen hbound hn
    have hnil : remJoin bs counts = [] := List.length_eq_zero.mp hn.symm
    refine ⟨by rw [hnil]; exact List.Perm.refl _, ?_⟩
    intro j hj i
    have hj0 : j = 0 := Nat.le_zero.mp hj
    subst hj0
    exact hbound i
  | succ n ih =>
    intro bs counts hlen hbound hn
    have hne : remJoin bs counts ≠ [] := by
      intro hnil
      rw [hnil] at hn
      simp at hn
    obtain ⟨i0, hi0⟩ := remJoin_ne_nil_exists bs counts hlen hne
    have hqb : counts.getD (pickBucket (bs.map List.length) counts) 0 <
        (bs.map List.length).getD (pickBucket (bs.map List.length) counts) 0 :=
      pickBucket_qualifies (bs.map List.length) counts ⟨i0, hi0⟩
    have hqb' : counts.getD (pickBucket (bs.map List.length) counts) 0 <
        (bs.getD (pickBucket (bs.map List.length) counts) []).length := by
      rw [← sizes_getD bs (pickBucket (bs.map List.length) counts)]
      exact hqb
    have hblen : pickBucket (bs.map List.length) counts < bs.length := by
      have hz : (bs.map List.length).getD (pickBucket (bs.map List.length) counts) 0 ≠ 0 := by
        omega
      by_contra hge
      rw [List.getD_eq_default _ _ (by simpa using le_of_not_lt hge)] at hz
      exact hz rfl
    have hclen : pickBucket (bs.map List.length) counts < counts.length := by omega
    have hlen2 : (counts.set (pickBucket (bs.map List.length) counts)
        (counts.getD (pickBucket (bs.map List.length) counts) 0 + 1)).length = bs.length := by
      rw [List.length_set]
      exact hlen
    have hbound2 : ∀ i, (counts.set (pickBucket (bs.map List.length) counts)
        (counts.getD (pickBucket (bs.map List.length) counts) 0 + 1)).getD i 0 ≤
        (bs.map List.length).getD i 0 := by
      intro i
      rw [getD_set_lemma counts _ _ i hclen]
      by_cases h : i = pickBucket (bs.map List.length) counts
      · rw [if_pos h]
        subst h
        omega
      · rw [if_neg h]
        exact hbound i
    have hperm := remJoin_step bs counts (pickBucket (bs.map List.length) counts) hlen hqb'
    have hn2 : n = (remJoin bs (counts.set (pickBucket (bs.map List.length) counts)
        (counts.getD (pickBucket (bs.map List.length) counts) 0 + 1))).length := by
      have hl := hperm.length_eq
      simp only [List.length_cons] at hl
      omega
    obtain ⟨ihp, ihb⟩ := ih bs _ hlen2 hbound2 hn2
    constructor
    · rw [mixUnits]
      exact (ihp.cons _).trans hperm.symm
    · intro j hj i
      cases j with
      | zero => exact hbound i
      | succ j2 =>
        rw [mixCounts]
        exact ihb j2 (Nat.succ_le_succ_iff.mp hj) i

/-- C9: when the mixing step of a flushed formation row runs over priority
buckets whose total population equals the number of accumulated row
commands, it emits a permutation of exactly the units of those buckets (each
command gets one unit, no unit is used twice); no bucket's fill counter ever
exceeds that bucket's size along the way, and whenever some bucket is
unexhausted the chosen bucket is unexhausted — its fill ratio
`(0.5 + filled)/bucketSize` being strictly below 1 while exhausted buckets
are skipped. -/
theorem formation_row_mixing_permutation (buckets : List (List Nat)) (numCmds : Nat)
    (hn : numCmds = (buckets.map List.length).sum) :
    List.Perm (mixUnits buckets numCmds (List.replicate buckets.length 0)) buckets.join ∧
    (∀ j, j ≤ numCmds → ∀ i,
      (mixCounts buckets j (List.replicate buckets.length 0)).getD i 0 ≤
        (buckets.map List.length).getD i 0) ∧
    (∀ (counts : List Nat) (i : Nat),
      counts.getD i 0 < (buckets.map List.length).getD i 0 →
      groupVal (counts.getD i 0) ((buckets.map List.length).getD i 0) < 1) ∧
    (∀ counts : List Nat,
      (∃ i, counts.getD i 0 < (buckets.map List.length).getD i 0) →
      counts.getD (pickBucket (buckets.map List.length) counts) 0 <
        (buckets.map List.length).getD (pickBucket (buckets.map List.length) counts) 0) := by
  have hrep : ∀ i, (List.replicate buckets.length (0 : ℕ)).getD i 0 = 0 := by
    intro i
    rw [List.getD_eq_getElem?_getD, List.getElem?_replicate]
    by_cases h : i < buckets.length <;> simp [h]
  have hlen : (List.replicate buckets.length (0 : ℕ)).length = buckets.length :=
    List.length_replicate _ _
  have hbound : ∀ i, (List.replicate buckets.length (0 : ℕ)).getD i 0 ≤
      (buckets.map List.length).getD i 0 := by
    intro i
    rw [hrep i]
    exact Nat.zero_le _
  have hn2 : numCmds = (remJoin buckets (List.replicate buckets.length 0)).length := by
    rw [remJoin_replicate, List.length_join, hn]
  obtain ⟨hperm, hcnt⟩ := mix_main numCmds buckets (List.replicate buckets.length 0)
    hlen hbound hn2
  refine ⟨?_, hcnt, ?_, ?_⟩
  · rw [remJoin_replicate] at hperm
    exact hperm
  · intro counts i hq
    exact groupVal_lt_one _ _ hq
  · intro counts hex
    exact pickBucket_qualifies _ counts hex

theorem formation_row_mixing_permutation_witness :
    List.Perm (mixUnits [[1, 2], [3]] 3 (List.replicate 2 0)) [1, 2, 3] :=
  (formation_row_mixing_permutation [[1, 2], [3]] 3 (by decide)).1
